import Mathlib

/-!
Verification development for the peer-to-peer file-sharing application.

The repository is a browser application: `src/lib/encryption.ts` wraps the
AES-GCM primitive, `src/lib/keyExchange.ts` drives an ECDH handshake and keeps
a session-key store, and `App.tsx` contains the chunked transfer state machine
(`sendFile`, `startFileTransfer`, `startSecureFileTransfer`,
`handleIncomingData`, `cancelFileTransfer`, `rejectFileTransfer`,
`calculateEstimatedTimeRemaining`).

Byte payloads are modelled as lists of byte values, randomness (fresh keys and
IVs) is passed in as explicit parameters, and the browser cryptography
primitives — which are not part of the repository source — are modelled from
the specification as an idealized AEAD and an abstract Diffie-Hellman group.
Everything else is translated directly from the TypeScript source.
-/

namespace P2PShare

/-- A byte payload (file contents, ciphertext bytes, IVs). -/
abbrev Bytes := List Nat

/-- Errors surfaced by the cryptographic layer: `AuthenticationFailure` is the
AEAD tag-check failure thrown by `crypto.subtle.decrypt`; `missingKey` is the
"No session key found for this session ID" error thrown by
`secureEncryptFile`/`secureDecryptFile`. -/
inductive CryptoError
  | authenticationFailure
  | missingKey
deriving DecidableEq

/-- Modelled from the spec: a ciphertext of the AES-GCM AEAD primitive
(`window.crypto.subtle.encrypt`, external to the repository source).  The
authentication tag travels as part of the ciphertext, so the ciphertext
determines the key and nonce it was sealed under; decryption recovers the
payload exactly when both match. -/
structure AesGcmCiphertext where
  payload : Bytes
  sealedKey : Nat
  sealedNonce : Bytes
deriving DecidableEq

/-- Size in bytes of the ciphertext as transmitted: the encrypted payload plus
the 16-byte GCM authentication tag. -/
def AesGcmCiphertext.size (c : AesGcmCiphertext) : Nat :=
  c.payload.length + 16

/-- Modelled from the spec: `window.crypto.subtle.encrypt({name: 'AES-GCM', iv}, key, data)`. -/
def aesGcmEncrypt (key : Nat) (iv : Bytes) (plaintext : Bytes) : AesGcmCiphertext :=
  ⟨plaintext, key, iv⟩

/-- Modelled from the spec: `window.crypto.subtle.decrypt({name: 'AES-GCM', iv}, key, data)`,
which fails with an authentication failure when the tag check fails (wrong
key, corrupted bytes, reused or mismatched nonce). -/
def aesGcmDecrypt (key : Nat) (iv : Bytes) (c : AesGcmCiphertext) : Except CryptoError Bytes :=
  if c.sealedKey = key ∧ c.sealedNonce = iv then .ok c.payload
  else .error .authenticationFailure

/-! ### `src/lib/keyExchange.ts` — session-key store -/

/-- The module-level `sessionKeys` object of `keyExchange.ts`, mapping a
session id to its derived AES key. -/
def SessionStore := String → Option Nat

/-- `storeSessionKey(sessionId, key)`: `sessionKeys[sessionId] = key`. -/
def storeSessionKey (store : SessionStore) (sessionId : String) (key : Nat) : SessionStore :=
  fun s => if s = sessionId then some key else store s

/-- `getSessionKey(sessionId)`: `sessionKeys[sessionId]`, absent when never stored. -/
def getSessionKey (store : SessionStore) (sessionId : String) : Option Nat :=
  store sessionId

/-- `removeSessionKey(sessionId)`: `delete sessionKeys[sessionId]` (guarded by a
presence check in the source; the resulting map is the same either way). -/
def removeSessionKey (store : SessionStore) (sessionId : String) : SessionStore :=
  fun s => if s = sessionId then none else store s

/-- The store before any key exchange has been completed. -/
def emptySessionStore : SessionStore := fun _ => none

/-! ### `src/lib/encryption.ts` — file encryption and decryption -/

/-- Result shape of `encryptFile` (interface `FileEncryption` in `types.ts`):
ciphertext blob, exported literal key, and the IV as a number array. -/
structure FileEncryption where
  data : AesGcmCiphertext
  key : Nat
  iv : Bytes
deriving DecidableEq

/-- Result shape of `secureEncryptFile` (interface `SecureFileEncryption`):
ciphertext blob, IV, and the session id referencing the exchanged key. -/
structure SecureFileEncryption where
  data : AesGcmCiphertext
  iv : Bytes
  sessionId : String
deriving DecidableEq

/-- `encryptFile(file)`: generates a fresh AES-GCM key and a fresh 96-bit
(12-byte) IV via `crypto.getRandomValues`, encrypts the whole file, and
returns ciphertext, exported key and IV.  The two random draws are passed in
as `freshKey` and `freshIv`. -/
def encryptFile (freshKey : Nat) (freshIv : Bytes) (fileBytes : Bytes) : FileEncryption :=
  { data := aesGcmEncrypt freshKey freshIv fileBytes
    key := freshKey
    iv := freshIv }

/-- `decryptFile(encryptedBlob, keyStr, iv, type)`: imports the literal key and
decrypts.  The `type` argument only tags the returned `Blob`'s mime type and
is omitted here. -/
def decryptFile (encryptedBlob : AesGcmCiphertext) (key : Nat) (iv : Bytes) :
    Except CryptoError Bytes :=
  aesGcmDecrypt key iv encryptedBlob

/-- `secureEncryptFile(file, sessionId)`: looks up the session key established
during key exchange and throws when it is absent; otherwise encrypts with a
fresh 12-byte IV (passed in as `freshIv`). -/
def secureEncryptFile (store : SessionStore) (fileBytes : Bytes) (sessionId : String)
    (freshIv : Bytes) : Except CryptoError SecureFileEncryption :=
  match getSessionKey store sessionId with
  | none => .error .missingKey
  | some key =>
      .ok { data := aesGcmEncrypt key freshIv fileBytes
            iv := freshIv
            sessionId := sessionId }

/-- `secureDecryptFile(encryptedBlob, sessionId, iv, type)`: looks up the
session key and throws the missing-key error before touching the ciphertext
when it is absent; otherwise decrypts (a tag-check failure is re-thrown as a
decryption failure). -/
def secureDecryptFile (store : SessionStore) (encryptedBlob : AesGcmCiphertext)
    (sessionId : String) (iv : Bytes) : Except CryptoError Bytes :=
  match getSessionKey store sessionId with
  | none => .error .missingKey
  | some key => aesGcmDecrypt key iv encryptedBlob

/-! ### `src/lib/keyExchange.ts` — ECDH handshake primitives -/

/-- Modelled from the spec: the base-field order of the P-256 curve used by
`generateKeyPair` (`window.crypto.subtle`, external to the repository
source).  The curve group is abstracted as the multiplicative monoid of this
field; a point is a field element and scalar multiplication is
exponentiation. -/
def p256FieldOrder : Nat :=
  115792089210356248762697446949407573530086143415290314195533631308867097853951

/-- A point of the abstracted P-256 group. -/
abbrev ECPoint := ZMod p256FieldOrder

/-- Modelled from the spec: the fixed base point of the curve. -/
def ecBasePoint : ECPoint := 5

/-- Modelled from the spec: the public half of `generateKeyPair()` — the base
point multiplied by the private scalar. -/
def generateKeyPairPublic (privateKey : Nat) : ECPoint :=
  ecBasePoint ^ privateKey

/-- `deriveSharedSecret(privateKey, peerPublicKey)`: `crypto.subtle.deriveKey`
with ECDH — the peer's public point multiplied by the local private scalar,
turned into a 256-bit AES-GCM key.  Modelled from the spec with the shared
point's value standing for the derived key. -/
def deriveSharedSecret (privateKey : Nat) (peerPublicKey : ECPoint) : Nat :=
  (peerPublicKey ^ privateKey).val

/-! ### Claim theorems: cryptographic layer -/

/-- C1: for every plaintext and AES-GCM key, decrypting the output of
`encryptFile` (and of `secureEncryptFile`, through the session key referenced
by its session id) with the same key reproduces the plaintext byte-for-byte,
and decrypting that ciphertext with any other key fails with an
authentication failure instead of returning a plaintext. -/
theorem encrypt_decrypt_roundtrip_auth
    (plaintext : Bytes) (key otherKey : Nat) (iv : Bytes) :
    decryptFile (encryptFile key iv plaintext).data key iv = .ok plaintext ∧
    (∀ (store : SessionStore) (sessionId : String) (enc : SecureFileEncryption),
       secureEncryptFile store plaintext sessionId iv = .ok enc →
       secureDecryptFile store enc.data sessionId enc.iv = .ok plaintext) ∧
    (otherKey ≠ key →
       decryptFile (encryptFile key iv plaintext).data otherKey iv =
         .error .authenticationFailure) ∧
    (∀ (store : SessionStore) (sessionId : String) (enc : SecureFileEncryption),
       secureEncryptFile store plaintext sessionId iv = .ok enc →
       getSessionKey store sessionId = some key →
       otherKey ≠ key →
       aesGcmDecrypt otherKey iv enc.data = .error .authenticationFailure) := by
  refine ⟨?_, ?_, ?_, ?_⟩
  · simp [decryptFile, encryptFile, aesGcmEncrypt, aesGcmDecrypt]
  · intro store sessionId enc henc
    unfold secureEncryptFile at henc
    cases hget : getSessionKey store sessionId with
    | none => rw [hget] at henc; exact absurd henc (by simp)
    | some k =>
        rw [hget] at henc
        simp only [Except.ok.injEq] at henc
        subst henc
        simp [secureDecryptFile, hget, aesGcmDecrypt, aesGcmEncrypt]
  · intro hne
    simp [decryptFile, encryptFile, aesGcmEncrypt, aesGcmDecrypt]
    exact fun h => hne h.symm
  · intro store sessionId enc henc hget hne
    unfold secureEncryptFile at henc
    rw [hget] at henc
    simp only [Except.ok.injEq] at henc
    subst henc
    simp [aesGcmDecrypt, aesGcmEncrypt]
    exact fun h => hne h.symm

/-- Witness for C1 at concrete inputs: plaintext `[1, 2, 3]`, key `7`, wrong
key `8`, IV `[0]`, and a store holding key `7` under session id `s`. -/
theorem encrypt_decrypt_roundtrip_auth_witness :
    decryptFile (encryptFile 7 [0] [1, 2, 3]).data 7 [0] = .ok [1, 2, 3] ∧
    secureDecryptFile (storeSessionKey emptySessionStore "s" 7)
      (aesGcmEncrypt 7 [0] [1, 2, 3]) "s" [0] = .ok [1, 2, 3] ∧
    decryptFile (encryptFile 7 [0] [1, 2, 3]).data 8 [0] =
      .error .authenticationFailure ∧
    aesGcmDecrypt 8 [0] (aesGcmEncrypt 7 [0] [1, 2, 3]) =
      .error .authenticationFailure := by
  have h := encrypt_decrypt_roundtrip_auth [1, 2, 3] 7 8 [0]
  have hstore : getSessionKey (storeSessionKey emptySessionStore "s" 7) "s" = some 7 := rfl
  have henc : secureEncryptFile (storeSessionKey emptySessionStore "s" 7) [1, 2, 3] "s" [0] =
      .ok ⟨aesGcmEncrypt 7 [0] [1, 2, 3], [0], "s"⟩ := rfl
  refine ⟨h.1, ?_, h.2.2.1 (by decide), ?_⟩
  · exact h.2.1 _ "s" _ henc
  · exact h.2.2.2 _ "s" _ henc hstore (by decide)

/-- C5: after `removeSessionKey(sessionId)` — or when no key was ever stored
for that session id — every `secureDecryptFile` call referencing that session
id fails with the missing-key error regardless of the ciphertext, and never
returns a plaintext. -/
theorem missing_session_key_decrypt_fails
    (store : SessionStore) (sessionId : String) (ct : AesGcmCiphertext) (iv : Bytes) :
    secureDecryptFile (removeSessionKey store sessionId) ct sessionId iv =
      .error .missingKey ∧
    secureDecryptFile emptySessionStore ct sessionId iv = .error .missingKey := by
  constructor
  · simp [secureDecryptFile, getSessionKey, removeSessionKey]
  · simp [secureDecryptFile, getSessionKey, emptySessionStore]

/-- C8: the ECDH derivation is symmetric — deriving with (A's private key,
B's public key) and with (B's private key, A's public key) yields the same
AES-GCM key — so ciphertext produced under the key one peer derives decrypts
correctly under the key the other peer derives. -/
theorem derive_shared_secret_symmetric (aPriv bPriv : Nat) :
    deriveSharedSecret aPriv (generateKeyPairPublic bPriv) =
      deriveSharedSecret bPriv (generateKeyPairPublic aPriv) ∧
    (∀ (iv plaintext : Bytes),
       aesGcmDecrypt (deriveSharedSecret bPriv (generateKeyPairPublic aPriv)) iv
         (aesGcmEncrypt (deriveSharedSecret aPriv (generateKeyPairPublic bPriv)) iv
           plaintext) = .ok plaintext) := by
  have hpt : generateKeyPairPublic bPriv ^ aPriv = generateKeyPairPublic aPriv ^ bPriv := by
    unfold generateKeyPairPublic
    rw [← pow_mul, ← pow_mul, Nat.mul_comm]
  have hkey : deriveSharedSecret aPriv (generateKeyPairPublic bPriv) =
      deriveSharedSecret bPriv (generateKeyPairPublic aPriv) := by
    unfold deriveSharedSecret
    rw [hpt]
  refine ⟨hkey, fun iv plaintext => ?_⟩
  rw [hkey]
  simp [aesGcmEncrypt, aesGcmDecrypt]

/-! ### `App.tsx` — outbound chunk pump (`startFileTransfer` / `startSecureFileTransfer`)

Both transfer functions run the same bounded-window pump; the model below is
their common loop, restricted to one transfer.  `chunksInFlight` mirrors the
`chunksInFlightRef.current[fileId]` entry: `none` when the entry has been
deleted (on completion or cancellation), in which case the while guard
`chunksInFlightRef.current[fileId] < MAX_CHUNKS_IN_FLIGHT` is false and the
chunk-ack handler's truthiness check skips the decrement. -/

/-- `const CHUNK_SIZE = 2097152` (2 MB chunks). -/
def CHUNK_SIZE : Nat := 2097152

/-- `const MAX_CHUNKS_IN_FLIGHT = 30`. -/
def MAX_CHUNKS_IN_FLIGHT : Nat := 30

/-- `Math.ceil(encryptedBlob.size / CHUNK_SIZE)`. -/
def totalChunksFor (size : Nat) : Nat :=
  (size + CHUNK_SIZE - 1) / CHUNK_SIZE

/-- `sendChunk(chunkIndex)`'s slice of the blob:
`start = chunkIndex * CHUNK_SIZE`, `end = Math.min(start + CHUNK_SIZE, encryptedBlob.size)`,
`encryptedBlob.slice(start, end)`. -/
def chunkSlice (blob : Bytes) (chunkIndex : Nat) : Bytes :=
  let start := chunkIndex * CHUNK_SIZE
  let stop := min (start + CHUNK_SIZE) blob.length
  (blob.drop start).take (stop - start)

/-- Sender-side state of one outbound transfer: the loop counter
`currentChunk`, the `chunksInFlightRef` entry, membership in
`cancelledTransfersRef`, the trace of `file-chunk` messages handed to the
channel, and whether `file-complete` has been emitted. -/
structure SenderState where
  currentChunk : Nat
  chunksInFlight : Option Nat
  cancelled : Bool
  sentChunks : List (Nat × Bytes)
  completeSent : Bool
deriving DecidableEq

/-- State right after `startFileTransfer` initializes
`chunksInFlightRef.current[fileId] = 0` and `currentChunk = 0`. -/
def initialSenderState : SenderState :=
  ⟨0, some 0, false, [], false⟩

/-- Events interleaved by the single-threaded scheduler: one iteration of the
`processNextChunks` while loop, one `chunk-ack` message, or a cancellation
(local `cancelFileTransfer` or an incoming `file-cancel`, which both add the
id to `cancelledTransfersRef` and delete the in-flight entry). -/
inductive SenderEvent
  | sendStep
  | chunkAck
  | cancel
deriving DecidableEq

/-- One iteration of the `processNextChunks` while loop: it fires only under
the loop guard
`currentChunk < totalChunks && chunksInFlightRef.current[fileId] < MAX_CHUNKS_IN_FLIGHT`
and the cancellation check; it sends the slice, increments the in-flight
count and `currentChunk`, and on the last chunk emits `file-complete` and
deletes the in-flight entry. -/
def senderSendStep (blob : Bytes) (s : SenderState) : SenderState :=
  match s.chunksInFlight with
  | none => s
  | some n =>
      if s.currentChunk < totalChunksFor blob.length ∧
         n < MAX_CHUNKS_IN_FLIGHT ∧ s.cancelled = false then
        if s.currentChunk + 1 = totalChunksFor blob.length then
          { currentChunk := s.currentChunk + 1
            chunksInFlight := none
            cancelled := s.cancelled
            sentChunks := s.sentChunks ++ [(s.currentChunk, chunkSlice blob s.currentChunk)]
            completeSent := true }
        else
          { currentChunk := s.currentChunk + 1
            chunksInFlight := some (n + 1)
            cancelled := s.cancelled
            sentChunks := s.sentChunks ++ [(s.currentChunk, chunkSlice blob s.currentChunk)]
            completeSent := s.completeSent }
      else s

/-- The `chunk-ack` handler: decrements the in-flight count when the entry is
present and positive (`if (chunksInFlightRef.current[fileId])`). -/
def senderAckStep (s : SenderState) : SenderState :=
  match s.chunksInFlight with
  | some (n + 1) => { s with chunksInFlight := some n }
  | _ => s

/-- Cancellation (local `cancelFileTransfer` or an incoming `file-cancel`):
adds the id to `cancelledTransfersRef` and deletes the in-flight entry. -/
def senderCancelStep (s : SenderState) : SenderState :=
  { s with cancelled := true, chunksInFlight := none }

/-- One step of the sender under the single-threaded scheduler. -/
def senderStep (blob : Bytes) (e : SenderEvent) (s : SenderState) : SenderState :=
  match e with
  | .sendStep => senderSendStep blob s
  | .chunkAck => senderAckStep s
  | .cancel => senderCancelStep s

/-- States of one outbound transfer reachable from the start of the pump. -/
inductive SenderReachable (blob : Bytes) : SenderState → Prop
  | init : SenderReachable blob initialSenderState
  | step (e : SenderEvent) {s : SenderState} :
      SenderReachable blob s → SenderReachable blob (senderStep blob e s)

/-- The number of chunks sent but not yet acknowledged; a deleted
`chunksInFlightRef` entry counts as zero. -/
def inFlightCount (s : SenderState) : Nat :=
  s.chunksInFlight.getD 0

/-- The trace of chunks the pump has handed to the channel after `k` sends. -/
def sentTrace (blob : Bytes) (k : Nat) : List (Nat × Bytes) :=
  (List.range k).map (fun i => (i, chunkSlice blob i))

lemma sender_trace_invariant (blob : Bytes) {s : SenderState}
    (h : SenderReachable blob s) :
    s.sentChunks = sentTrace blob s.currentChunk ∧
    s.currentChunk ≤ totalChunksFor blob.length := by
  induction h with
  | init => exact ⟨rfl, Nat.zero_le _⟩
  | step e h ih =>
      rcases ih with ⟨htr, hle⟩
      cases e with
      | sendStep =>
          rename_i s
          show (senderSendStep blob s).sentChunks =
              sentTrace blob (senderSendStep blob s).currentChunk ∧
            (senderSendStep blob s).currentChunk ≤ totalChunksFor blob.length
          unfold senderSendStep
          split
          · exact ⟨htr, hle⟩
          · split
            · split
              · rename_i hg hlast
                refine ⟨?_, le_of_eq hlast⟩
                simp [htr, sentTrace, List.range_succ]
              · rename_i hg hlast
                refine ⟨?_, hg.1⟩
                simp [htr, sentTrace, List.range_succ]
            · exact ⟨htr, hle⟩
      | chunkAck =>
          rename_i s
          show (senderAckStep s).sentChunks =
              sentTrace blob (senderAckStep s).currentChunk ∧
            (senderAckStep s).currentChunk ≤ totalChunksFor blob.length
          unfold senderAckStep
          split
          · exact ⟨htr, hle⟩
          · exact ⟨htr, hle⟩
      | cancel => exact ⟨htr, hle⟩

/-- Intermediate pump state after `k` chunks have been sent and all of them
acknowledged. -/
def midSenderState (blob : Bytes) (k : Nat) : SenderState :=
  ⟨k, some 0, false, sentTrace blob k, false⟩

lemma sender_reach_mid (blob : Bytes) :
    ∀ k, k < totalChunksFor blob.length →
      SenderReachable blob (midSenderState blob k) := by
  intro k
  induction k with
  | zero =>
      intro _
      have : midSenderState blob 0 = initialSenderState := by
        simp [midSenderState, initialSenderState, sentTrace]
      rw [this]
      exact SenderReachable.init
  | succ m ih =>
      intro hlt
      have hm : m < totalChunksFor blob.length := Nat.lt_of_succ_lt hlt
      have hreach := ih hm
      have hsend : senderStep blob .sendStep (midSenderState blob m) =
          ⟨m + 1, some 1, false, sentTrace blob (m + 1), false⟩ := by
        show senderSendStep blob (midSenderState blob m) = _
        unfold senderSendStep
        split
        · rename_i hnone
          exact absurd hnone (by simp [midSenderState])
        · rename_i n hsome
          have hn : n = 0 := by
            have : some 0 = some n := hsome
            simpa using this.symm
          subst hn
          split
          · split
            · rename_i hg hlast
              exact absurd hlast (by simpa [midSenderState] using Nat.ne_of_lt hlt)
            · simp [midSenderState, sentTrace, List.range_succ]
          · rename_i hg
            exact absurd ⟨hm, by decide, rfl⟩ hg
      have hack : senderStep blob .chunkAck
          (⟨m + 1, some 1, false, sentTrace blob (m + 1), false⟩ : SenderState) =
          midSenderState blob (m + 1) := by
        rfl
      have h1 := SenderReachable.step SenderEvent.sendStep hreach
      rw [hsend] at h1
      have h2 := SenderReachable.step SenderEvent.chunkAck h1
      rw [hack] at h2
      exact h2

lemma sender_can_finish (blob : Bytes) :
    ∃ s : SenderState, SenderReachable blob s ∧
      s.currentChunk = totalChunksFor blob.length := by
  cases htc : totalChunksFor blob.length with
  | zero =>
      exact ⟨initialSenderState, SenderReachable.init, by simp [initialSenderState, htc]⟩
  | succ t =>
      have ht : t < totalChunksFor blob.length := by rw [htc]; exact Nat.lt_succ_self t
      have hreach := sender_reach_mid blob t ht
      refine ⟨senderStep blob .sendStep (midSenderState blob t),
        SenderReachable.step .sendStep hreach, ?_⟩
      show (senderSendStep blob (midSenderState blob t)).currentChunk = _
      unfold senderSendStep
      split
      · rename_i hnone
        exact absurd hnone (by simp [midSenderState])
      · rename_i n hsome
        split
        · split
          · rename_i hg hlast
            rfl
          · rename_i hg hlast
            exact absurd (by simp [midSenderState, htc]) hlast
        · rename_i hg
          refine absurd ⟨ht, ?_, rfl⟩ hg
          have h0 : some 0 = some n := hsome
          simp only [Option.some.injEq] at h0
          rw [← h0]
          decide

/-! ### Claim theorems: chunking and flow control -/

/-- C2: the sender computes `totalChunks = ceil(size / CHUNK_SIZE)` with
`CHUNK_SIZE = 2097152` (so a 5,000,000-byte blob gives 3 chunks); when the
pump has processed the whole blob, the chunks it handed to the channel carry
exactly the indices `0 .. totalChunks - 1` in order, chunk `i` holding the
byte range `[i*CHUNK_SIZE, min((i+1)*CHUNK_SIZE, size))`; and a state in
which the whole blob has been processed is reachable for every blob. -/
theorem chunking_exact :
    totalChunksFor 5000000 = 3 ∧
    (∀ (blob : Bytes) (s : SenderState), SenderReachable blob s →
       s.currentChunk = totalChunksFor blob.length →
       s.sentChunks.map Prod.fst = List.range (totalChunksFor blob.length) ∧
       (∀ i bytes, (i, bytes) ∈ s.sentChunks →
          bytes = (blob.drop (i * CHUNK_SIZE)).take
            (min ((i + 1) * CHUNK_SIZE) blob.length - i * CHUNK_SIZE))) ∧
    (∀ blob : Bytes, ∃ s : SenderState, SenderReachable blob s ∧
       s.currentChunk = totalChunksFor blob.length) := by
  refine ⟨by decide, ?_, sender_can_finish⟩
  intro blob s hreach hdone
  have htr := (sender_trace_invariant blob hreach).1
  constructor
  · rw [htr, hdone]
    show List.map Prod.fst ((List.range (totalChunksFor blob.length)).map
        (fun i => (i, chunkSlice blob i))) = List.range (totalChunksFor blob.length)
    rw [List.map_map]
    have hcomp : (Prod.fst ∘ fun i => (i, chunkSlice blob i)) = fun i => i := by
      funext i
      rfl
    rw [hcomp, List.map_id']
  · intro i bytes hmem
    rw [htr] at hmem
    rcases List.mem_map.mp hmem with ⟨a, ha, heq⟩
    injection heq with h1 h2
    subst h1
    subst h2
    have harith : a * CHUNK_SIZE + CHUNK_SIZE = (a + 1) * CHUNK_SIZE := by ring
    simp only [chunkSlice]
    rw [harith]

/-- Witness for C2 at the one-byte blob `[7]`: one chunk, reached after a
single send step, containing exactly that byte. -/
theorem chunking_exact_witness :
    totalChunksFor 5000000 = 3 ∧
    (senderStep [7] .sendStep initialSenderState).sentChunks.map Prod.fst =
      List.range (totalChunksFor 1) ∧
    (senderStep [7] .sendStep initialSenderState).sentChunks = [(0, [7])] := by
  have hreach : SenderReachable [7] (senderStep [7] .sendStep initialSenderState) :=
    SenderReachable.step .sendStep SenderReachable.init
  have hdone : (senderStep [7] .sendStep initialSenderState).currentChunk =
      totalChunksFor (List.length [7]) := by decide
  have h := (chunking_exact.2.1 [7] _ hreach hdone).1
  exact ⟨chunking_exact.1, by simpa using h, by decide⟩

/-- C3: in every reachable sender state the count of chunks sent but not yet
acknowledged is at most `MAX_CHUNKS_IN_FLIGHT = 30`; a pump iteration sends
nothing when the count is not strictly below the limit; and a `chunk-ack`
decrements a positive in-flight count by one. -/
theorem chunk_window_invariant :
    (∀ (blob : Bytes) (s : SenderState), SenderReachable blob s →
       inFlightCount s ≤ MAX_CHUNKS_IN_FLIGHT) ∧
    (∀ (blob : Bytes) (s : SenderState) (n : Nat),
       s.chunksInFlight = some n → MAX_CHUNKS_IN_FLIGHT ≤ n →
       senderStep blob .sendStep s = s) ∧
    (∀ (blob : Bytes) (s : SenderState) (n : Nat),
       s.chunksInFlight = some (n + 1) →
       (senderStep blob .chunkAck s).chunksInFlight = some n) := by
  refine ⟨?_, ?_, ?_⟩
  · intro blob s hreach
    induction hreach with
    | init => decide
    | step e h ih =>
        cases e with
        | sendStep =>
            rename_i s
            show inFlightCount (senderSendStep blob s) ≤ MAX_CHUNKS_IN_FLIGHT
            unfold senderSendStep
            split
            · exact ih
            · split
              · split
                · simp [inFlightCount]
                · rename_i n hsome hg hlast
                  simpa [inFlightCount] using hg.2.1
              · exact ih
        | chunkAck =>
            rename_i s
            show inFlightCount (senderAckStep s) ≤ MAX_CHUNKS_IN_FLIGHT
            unfold senderAckStep
            split
            · rename_i n hsome
              have h1 : n + 1 ≤ MAX_CHUNKS_IN_FLIGHT := by
                simpa [inFlightCount, hsome] using ih
              simpa [inFlightCount] using Nat.le_of_succ_le h1
            · exact ih
        | cancel => simp [senderStep, senderCancelStep, inFlightCount]
  · intro blob s n hfl hge
    show senderSendStep blob s = s
    unfold senderSendStep
    split
    · rfl
    · rename_i m hsome
      split
      · rename_i hg
        rw [hfl] at hsome
        have hmn : m = n := by
          have := hsome
          simp only [Option.some.injEq] at this
          exact this.symm
        subst hmn
        exact absurd hg.2.1 (Nat.not_lt.mpr hge)
      · rfl
  · intro blob s n hfl
    show (senderAckStep s).chunksInFlight = some n
    unfold senderAckStep
    split
    · rename_i m hsome
      rw [hfl] at hsome
      have h1 : n + 1 = m + 1 := by simpa using hsome
      have hmn : m = n := by omega
      simp [hmn]
    · rename_i hother
      exact absurd hfl (hother n)

/-- Witness for C3: the initial state is reachable and within the window; a
state with a full window of 30 sends no further chunk; an ack at in-flight
count 1 brings it to 0. -/
theorem chunk_window_invariant_witness :
    inFlightCount initialSenderState ≤ MAX_CHUNKS_IN_FLIGHT ∧
    senderStep [] .sendStep (⟨0, some 30, false, [], false⟩ : SenderState) =
      ⟨0, some 30, false, [], false⟩ ∧
    (senderStep [] .chunkAck (⟨1, some 1, false, [], false⟩ : SenderState)).chunksInFlight =
      some 0 := by
  refine ⟨chunk_window_invariant.1 [] initialSenderState SenderReachable.init, ?_, ?_⟩
  · exact chunk_window_invariant.2.1 [] _ 30 rfl (le_refl 30)
  · exact chunk_window_invariant.2.2 [] _ 0 rfl

/-! ### `App.tsx` — receiver side of `handleIncomingData`

The per-transfer maps of the source (`fileChunksRef`, `chunksInFlightRef`,
`cancelledTransfersRef`, the `transfers` list) are keyed by `fileId` and never
interact across keys, so the model below is the projection of the receiver
state onto one transfer id. -/

/-- The `status` field of a `FileTransfer` record (`types.ts`). -/
inductive TransferStatus
  | pending
  | transferring
  | completed
  | error
  | rejected
  | cancelled
deriving DecidableEq

/-- Whether a status is terminal (spec §3: `Completed`, `Cancelled`,
`Rejected`, `Errored`). -/
def TransferStatus.isTerminal : TransferStatus → Bool
  | .completed => true
  | .cancelled => true
  | .rejected => true
  | .error => true
  | .pending => false
  | .transferring => false

/-- The fields of a receiver-side `FileTransfer` record that the transfer
logic manipulates. -/
structure ReceiverRecord where
  progress : Nat
  status : TransferStatus
  blob : Option Bytes
deriving DecidableEq

/-- One `fileChunksRef.current[fileId]` entry: a JS array with holes.
`slots j` is the chunk stored at index `j` (`none` for a hole) and `len` is
the array length (grown to `index + 1` by an out-of-bounds write). -/
structure BufferState where
  slots : Nat → Option Bytes
  len : Nat

/-- Receiver-side state of one inbound transfer: the `FileTransfer` record
(absent until `file-start` adds it), membership in `cancelledTransfersRef`,
the reassembly buffer entry, and the `chunksInFlightRef` entry. -/
structure ReceiverState where
  record : Option ReceiverRecord
  cancelled : Bool
  buffer : Option BufferState
  chunksInFlight : Option Nat

/-- State before any message about this transfer id has arrived. -/
def initialReceiverState : ReceiverState :=
  ⟨none, false, none, none⟩

/-- Messages the receiver sends back over the channel. -/
inductive ReceiverOut
  | chunkAck (index : Nat)
  | fileCancelAck
deriving DecidableEq

/-- `Math.round(a / b)` for natural `a`, `b` — round half up. -/
def jsRoundDiv (a b : Nat) : Nat :=
  (2 * a + b) / (2 * b)

/-- `new Blob(chunks)` where
`chunks = fileChunksRef.current[fileId].filter(chunk => chunk !== undefined)`:
the present slots, in index order, concatenated. -/
def assembleBlob (b : BufferState) : Bytes :=
  ((List.range b.len).filterMap b.slots).flatten

/-- The `file-start` branch of `handleIncomingData`: allocates
`new Array(Math.ceil(fileSize / CHUNK_SIZE))` as the reassembly buffer and
appends a fresh pending `FileTransfer` record. -/
def handleFileStart (fileSize : Nat) (s : ReceiverState) : ReceiverState :=
  { s with
    buffer := some ⟨fun _ => none, totalChunksFor fileSize⟩
    record := some ⟨0, .pending, none⟩ }

/-- The `file-chunk` branch of `handleIncomingData`: returns immediately when
the transfer is in the cancelled set (bytes not stored, no ack); otherwise
stores the bytes at `chunkIndex` (creating an empty buffer when absent),
updates progress `Math.round((chunkIndex+1)*100/total)` and status, replies
`chunk-ack`, and on `chunkIndex = total - 1` concatenates the present slots
into a blob, marks the record completed and deletes the buffer. -/
def handleFileChunk (chunkIndex total : Nat) (bytes : Bytes) (s : ReceiverState) :
    ReceiverState × List ReceiverOut :=
  if s.cancelled then (s, [])
  else
    let buf0 := s.buffer.getD ⟨fun _ => none, 0⟩
    let buf1 : BufferState :=
      ⟨fun j => if j = chunkIndex then some bytes else buf0.slots j,
       max buf0.len (chunkIndex + 1)⟩
    if chunkIndex = total - 1 then
      ({ s with
          buffer := none
          record := s.record.map (fun t =>
            { t with
              progress := 100
              status := .completed
              blob := some (assembleBlob buf1) }) },
       [.chunkAck chunkIndex])
    else
      ({ s with
          buffer := some buf1
          record := s.record.map (fun t =>
            { t with
              progress := jsRoundDiv ((chunkIndex + 1) * 100) total
              status := .transferring }) },
       [.chunkAck chunkIndex])

/-- The `file-cancel` branch of `handleIncomingData`: adds the id to the
cancelled set, marks the record cancelled, deletes the reassembly buffer and
the in-flight entry, and replies `file-cancel-ack`. -/
def handleFileCancel (s : ReceiverState) : ReceiverState × List ReceiverOut :=
  ({ s with
      cancelled := true
      record := s.record.map (fun t => { t with status := .cancelled })
      buffer := none
      chunksInFlight := none },
   [.fileCancelAck])

/-! ### Claim theorems: cancellation and reassembly -/

/-- C4: receiving `file-cancel` for a non-terminal transfer marks it
cancelled, discards the reassembly buffer and the in-flight counter, and
replies `file-cancel-ack`; and once the transfer is in the cancelled set,
every subsequent `file-chunk` is dropped silently — the state is unchanged
(no bytes stored) and no `chunk-ack` is sent. -/
theorem cancel_marks_and_drops :
    (∀ (s : ReceiverState) (t : ReceiverRecord),
       s.record = some t → t.status.isTerminal = false →
       (handleFileCancel s).1.cancelled = true ∧
       (handleFileCancel s).1.record = some { t with status := .cancelled } ∧
       (handleFileCancel s).1.buffer = none ∧
       (handleFileCancel s).1.chunksInFlight = none ∧
       (handleFileCancel s).2 = [.fileCancelAck]) ∧
    (∀ (s : ReceiverState) (chunkIndex total : Nat) (bytes : Bytes),
       s.cancelled = true →
       handleFileChunk chunkIndex total bytes s = (s, [])) := by
  constructor
  · intro s t hrec hterm
    refine ⟨rfl, ?_, rfl, rfl, rfl⟩
    simp [handleFileCancel, hrec]
  · intro s chunkIndex total bytes hc
    simp [handleFileChunk, hc]

/-- Witness for C4 at a concrete mid-transfer state (status `transferring`,
a two-slot buffer, two chunks in flight) and a concrete cancelled state. -/
theorem cancel_marks_and_drops_witness :
    (handleFileCancel
        (⟨some ⟨40, .transferring, none⟩, false, some ⟨fun _ => none, 2⟩, some 2⟩ :
          ReceiverState)).1.record = some ⟨40, .cancelled, none⟩ ∧
    (handleFileCancel
        (⟨some ⟨40, .transferring, none⟩, false, some ⟨fun _ => none, 2⟩, some 2⟩ :
          ReceiverState)).2 = [.fileCancelAck] ∧
    handleFileChunk 1 3 [5]
        (⟨some ⟨40, .cancelled, none⟩, true, none, none⟩ : ReceiverState) =
      (⟨some ⟨40, .cancelled, none⟩, true, none, none⟩, []) := by
  have h1 := cancel_marks_and_drops.1
      (⟨some ⟨40, .transferring, none⟩, false, some ⟨fun _ => none, 2⟩, some 2⟩ :
        ReceiverState) ⟨40, .transferring, none⟩ rfl rfl
  have h2 := cancel_marks_and_drops.2
      (⟨some ⟨40, .cancelled, none⟩, true, none, none⟩ : ReceiverState) 1 3 [5] rfl
  exact ⟨h1.2.1, h1.2.2.2.2, h2⟩

/-- C9: processing a `file-chunk` whose index is `total - 1` on a
non-cancelled transfer marks the record completed and builds the blob by
concatenating, in index order, exactly the buffer slots that are filled —
holes are silently filtered out with no contiguity check — so (concretely)
a transfer announced with a 2-chunk file size whose first chunk never
arrived completes with a blob shorter than the announced size. -/
theorem last_chunk_assembles_present_slots :
    (∀ (s : ReceiverState) (chunkIndex total : Nat) (bytes : Bytes),
       s.cancelled = false → chunkIndex + 1 = total →
       (handleFileChunk chunkIndex total bytes s).1.record =
         s.record.map (fun t =>
           { t with
             progress := 100
             status := .completed
             blob := some (((List.range
                 (max (s.buffer.getD ⟨fun _ => none, 0⟩).len (chunkIndex + 1))).filterMap
                 (fun j => if j = chunkIndex then some bytes
                   else (s.buffer.getD ⟨fun _ => none, 0⟩).slots j)).flatten) }) ∧
       (handleFileChunk chunkIndex total bytes s).1.buffer = none ∧
       (handleFileChunk chunkIndex total bytes s).2 = [.chunkAck chunkIndex]) ∧
    ((handleFileChunk 1 2 [7]
        (handleFileStart (2 * CHUNK_SIZE) initialReceiverState)).1.record =
      some ⟨100, .completed, some [7]⟩ ∧
     ([7] : Bytes).length < 2 * CHUNK_SIZE) := by
  constructor
  · intro s chunkIndex total bytes hc hlast
    have hi : chunkIndex = total - 1 := by omega
    refine ⟨?_, ?_, ?_⟩ <;>
      simp [handleFileChunk, hc, hi, assembleBlob]
  · constructor
    · decide
    · decide

/-- Witness for C9: the general completion statement applied at the concrete
short-blob scenario (buffer of two slots, only the final chunk present). -/
theorem last_chunk_assembles_present_slots_witness :
    (handleFileChunk 1 2 [7]
        (handleFileStart (2 * CHUNK_SIZE) initialReceiverState)).1.record =
      (handleFileStart (2 * CHUNK_SIZE) initialReceiverState).record.map (fun t =>
        { t with
          progress := 100
          status := .completed
          blob := some (((List.range
              (max ((handleFileStart (2 * CHUNK_SIZE)
                initialReceiverState).buffer.getD ⟨fun _ => none, 0⟩).len (1 + 1))).filterMap
              (fun j => if j = 1 then some [7]
                else ((handleFileStart (2 * CHUNK_SIZE)
                  initialReceiverState).buffer.getD ⟨fun _ => none, 0⟩).slots j)).flatten) }) := by
  exact (last_chunk_assembles_present_slots.1
    (handleFileStart (2 * CHUNK_SIZE) initialReceiverState) 1 2 [7] rfl rfl).1

/-! ### `App.tsx` — `sendFile` negotiation and fallback -/

/-- Outcome of the `initiateKeyExchange` round inside `sendFile`: the pending
handle resolved `true` with the generated session id, resolved `false`
(`key-exchange-reply` handling failed on the peer initiator side), or the
exchange / secure encryption threw. -/
inductive HandshakeResult
  | success (sessionId : String)
  | failed
  | errored
deriving DecidableEq

/-- What `sendFile` holds after the encryption phase: the ciphertext and the
cipher parameters that will travel in `file-request` / `file-start`. -/
structure PreparedSend where
  encryptedData : AesGcmCiphertext
  key : Option Nat
  iv : Bytes
  sessionId : Option String
  secure : Bool
deriving DecidableEq

/-- The encryption phase of `sendFile`: in secure mode it runs the key
exchange and `secureEncryptFile`; when the handshake resolves `false`, or the
exchange or secure encryption throws, it falls back to legacy `encryptFile`
with a freshly generated literal key (`secure = false`, no session id).
Randomness is passed in as `freshKey` (legacy key), `legacyIv` and
`secureIv`. -/
def sendFilePrepare (secureMode : Bool) (handshake : HandshakeResult)
    (store : SessionStore) (freshKey : Nat) (legacyIv secureIv : Bytes)
    (fileBytes : Bytes) : PreparedSend :=
  let legacy : PreparedSend :=
    { encryptedData := (encryptFile freshKey legacyIv fileBytes).data
      key := some (encryptFile freshKey legacyIv fileBytes).key
      iv := (encryptFile freshKey legacyIv fileBytes).iv
      sessionId := none
      secure := false }
  if secureMode then
    match handshake with
    | .success sid =>
        match secureEncryptFile store fileBytes sid secureIv with
        | .ok enc =>
            { encryptedData := enc.data
              key := none
              iv := enc.iv
              sessionId := some enc.sessionId
              secure := true }
        | .error _ => legacy
    | .failed => legacy
    | .errored => legacy
  else legacy

/-- The cipher-relevant fields of the `file-request` message `sendFile`
emits: `{fileSize, key, iv, sessionId, secure}` (`key` only in legacy mode,
`sessionId` only in secure mode). -/
structure TransferRequestMsg where
  fileSize : Nat
  key : Option Nat
  iv : Bytes
  sessionId : Option String
  secure : Bool
deriving DecidableEq

/-- The `file-request` built from the prepared send. -/
def transferRequestOf (p : PreparedSend) : TransferRequestMsg :=
  { fileSize := p.encryptedData.size
    key := p.key
    iv := p.iv
    sessionId := p.sessionId
    secure := p.secure }

/-- The cipher-relevant fields of the `file-start` message. -/
structure TransferStartMsg where
  fileSize : Nat
  key : Option Nat
  iv : Bytes
  sessionId : Option String
  secure : Bool
deriving DecidableEq

/-- The `file-start` emitted on acceptance: `handleResponse` runs
`startSecureFileTransfer` when `secure && sessionId` and
`startFileTransfer` (which sends the literal key with `secure: false`)
otherwise. -/
def transferStartOf (p : PreparedSend) : TransferStartMsg :=
  match p.secure, p.sessionId with
  | true, some sid =>
      { fileSize := p.encryptedData.size
        key := none
        iv := p.iv
        sessionId := some sid
        secure := true }
  | _, _ =>
      { fileSize := p.encryptedData.size
        key := p.key
        iv := p.iv
        sessionId := none
        secure := false }

/-- Sender-side `FileTransfer` record fields set by `handleResponse`. -/
structure SenderRecord where
  progress : Nat
  status : TransferStatus
deriving DecidableEq

/-- Messages the sender hands to the channel while answering the
negotiation. -/
inductive SenderOut
  | fileStart (msg : TransferStartMsg)
  | fileChunk (index : Nat) (bytes : Bytes)
  | fileComplete
deriving DecidableEq

/-- The `handleResponse` listener inside `sendFile`: on `file-accepted` it
starts the transfer (recording a pending transfer, emitting `file-start`,
and scheduling the chunk pump) and resolves `true`; on `file-rejected` it
records the transfer as rejected with progress 0, emits nothing, and
resolves `false`. -/
def handleResponse (p : PreparedSend) (accepted : Bool) :
    SenderRecord × List SenderOut × Bool :=
  if accepted then
    (⟨0, .pending⟩, [.fileStart (transferStartOf p)], true)
  else
    (⟨0, .rejected⟩, [], false)

/-- `rejectFileTransfer(fileId)`: sends `file-rejected` for the id and
removes it from the pending list; no `FileTransfer` record is created and no
transfer ever starts on the receiver for that id. -/
def rejectFileTransfer (pending : List String) (fileId : String) :
    List String × String :=
  (pending.filter (fun p => p != fileId), fileId)

/-! ### `App.tsx` — `calculateEstimatedTimeRemaining` -/

/-- `calculateEstimatedTimeRemaining(fileId, currentProgress, totalSize)`:
`speed = transferSpeedRef.current[fileId] || 0`; undefined when
`speed <= 0`; otherwise
`Math.max(0, Math.round(totalSize * (1 - currentProgress/100) / speed * 1000))`
milliseconds.  The stored sample is passed in as `storedSpeed` (`none` when
absent). -/
def calculateEstimatedTimeRemaining (storedSpeed : Option ℚ)
    (currentProgress totalSize : ℚ) : Option ℤ :=
  let speed := storedSpeed.getD 0
  if speed ≤ 0 then none
  else
    let remainingBytes := totalSize * (1 - currentProgress / 100)
    let estimatedTimeMs := remainingBytes / speed * 1000
    some (max 0 (round estimatedTimeMs))

/-! ### Claim theorems: fallback, rejection, telemetry -/

/-- C6: when secure mode is on but the handshake resolves with failure or
throws, `sendFile` falls back to the literal-key mode: the prepared transfer
is insecure, both `file-request` and `file-start` carry the freshly
generated literal key with `secure = false` and no session id, and the
ciphertext decrypts with that literal key. -/
theorem handshake_failure_falls_back
    (handshake : HandshakeResult) (store : SessionStore) (freshKey : Nat)
    (legacyIv secureIv : Bytes) (fileBytes : Bytes)
    (hfail : handshake = .failed ∨ handshake = .errored) :
    (sendFilePrepare true handshake store freshKey legacyIv secureIv
        fileBytes).secure = false ∧
    transferRequestOf (sendFilePrepare true handshake store freshKey legacyIv
        secureIv fileBytes) =
      { fileSize := (aesGcmEncrypt freshKey legacyIv fileBytes).size
        key := some freshKey
        iv := legacyIv
        sessionId := none
        secure := false } ∧
    transferStartOf (sendFilePrepare true handshake store freshKey legacyIv
        secureIv fileBytes) =
      { fileSize := (aesGcmEncrypt freshKey legacyIv fileBytes).size
        key := some freshKey
        iv := legacyIv
        sessionId := none
        secure := false } ∧
    decryptFile (sendFilePrepare true handshake store freshKey legacyIv
        secureIv fileBytes).encryptedData freshKey legacyIv = .ok fileBytes := by
  rcases hfail with hf | hf <;> subst hf <;>
    exact ⟨rfl, rfl, rfl, by simp [sendFilePrepare, encryptFile, decryptFile,
      aesGcmDecrypt, aesGcmEncrypt]⟩

/-- Witness for C6 at a failed handshake and concrete key, IVs and file
bytes. -/
theorem handshake_failure_falls_back_witness :
    (sendFilePrepare true .failed emptySessionStore 9 [1] [2] [3, 4]).secure = false ∧
    transferRequestOf (sendFilePrepare true .failed emptySessionStore 9 [1] [2] [3, 4]) =
      { fileSize := (aesGcmEncrypt 9 [1] [3, 4]).size
        key := some 9
        iv := [1]
        sessionId := none
        secure := false } ∧
    decryptFile (sendFilePrepare true .failed emptySessionStore 9 [1] [2]
        [3, 4]).encryptedData 9 [1] = .ok [3, 4] := by
  have h := handshake_failure_falls_back .failed emptySessionStore 9 [1] [2] [3, 4]
    (Or.inl rfl)
  exact ⟨h.1, h.2.1, h.2.2.2⟩

/-- C7: a transfer whose request is answered with `file-rejected` never
starts: the sender records it as rejected with progress 0, resolves the
pending negotiation with `false`, and emits no message at all — in
particular no `file-start` and no `file-chunk`; on the receiver,
`rejectFileTransfer` answers with `file-rejected` and drops the id from the
pending list. -/
theorem rejected_never_starts (p : PreparedSend) (pending : List String)
    (fileId : String) :
    (handleResponse p false).1 = ⟨0, .rejected⟩ ∧
    (handleResponse p false).2.1 = [] ∧
    (handleResponse p false).2.2 = false ∧
    (rejectFileTransfer pending fileId).2 = fileId ∧
    fileId ∉ (rejectFileTransfer pending fileId).1 := by
  refine ⟨rfl, rfl, rfl, rfl, ?_⟩
  simp [rejectFileTransfer]

/-- Witness for C7 at a concrete prepared transfer and a concrete pending
list containing the rejected id. -/
theorem rejected_never_starts_witness :
    (handleResponse
        (⟨aesGcmEncrypt 1 [0] [2], some 1, [0], none, false⟩ : PreparedSend)
        false).1 = ⟨0, .rejected⟩ ∧
    (handleResponse
        (⟨aesGcmEncrypt 1 [0] [2], some 1, [0], none, false⟩ : PreparedSend)
        false).2.1 = [] ∧
    "f1" ∉ (rejectFileTransfer ["f1", "f2"] "f1").1 := by
  have h := rejected_never_starts
    (⟨aesGcmEncrypt 1 [0] [2], some 1, [0], none, false⟩ : PreparedSend)
    ["f1", "f2"] "f1"
  exact ⟨h.1, h.2.1, h.2.2.2.2⟩

/-- C10: the estimated time remaining is undefined exactly when the stored
throughput sample is absent or not positive; with a positive sample it is
`remainingBytes / speed` (in rounded milliseconds, clamped non-negative)
where `remainingBytes = totalSize * (1 - progress / 100)`. -/
theorem eta_formula :
    (∀ (currentProgress totalSize : ℚ),
       calculateEstimatedTimeRemaining none currentProgress totalSize = none) ∧
    (∀ (speed currentProgress totalSize : ℚ), speed ≤ 0 →
       calculateEstimatedTimeRemaining (some speed) currentProgress totalSize =
         none) ∧
    (∀ (speed currentProgress totalSize : ℚ), 0 < speed →
       calculateEstimatedTimeRemaining (some speed) currentProgress totalSize =
         some (max 0 (round (totalSize * (1 - currentProgress / 100) / speed *
           1000)))) := by
  refine ⟨?_, ?_, ?_⟩
  · intro currentProgress totalSize
    simp [calculateEstimatedTimeRemaining]
  · intro speed currentProgress totalSize hsp
    simp [calculateEstimatedTimeRemaining, hsp]
  · intro speed currentProgress totalSize hsp
    simp [calculateEstimatedTimeRemaining, not_le.mpr hsp]

/-- Witness for C10: a 1000-byte transfer at 50% with a 2-bytes-per-second
sample, and the same inputs with a zero / absent sample. -/
theorem eta_formula_witness :
    calculateEstimatedTimeRemaining none 50 1000 = none ∧
    calculateEstimatedTimeRemaining (some 0) 50 1000 = none ∧
    calculateEstimatedTimeRemaining (some 2) 50 1000 =
      some (max 0 (round ((1000 : ℚ) * (1 - 50 / 100) / 2 * 1000))) := by
  exact ⟨eta_formula.1 50 1000, eta_formula.2.1 0 50 1000 (by norm_num),
    eta_formula.2.2 2 50 1000 (by norm_num)⟩

end P2PShare
